import Mathlib

/-!
Verification of the buffered batch-ingestion pipeline implemented in
`scripts/influxdb_importer.py` (class `InfluxdbImporter`), against its
natural-language specification.

The Python source is shallowly embedded: the retrying batch writer
`_import_data_list` becomes a recursion over the finite list of backend
outcomes it observes; the bounded import queue (`Queue.Queue`) becomes a
`List` with atomic put/get steps; the background drain thread
`import_thread` becomes a per-iteration function over the queue contents
and the points concurrently enqueued; the constructor and the sampling
loop become explicit traces of the observable actions they perform.
-/

namespace InfluxdbImporter

/-- Tags dict of the importer (`tags_dict` in the source): a string-keyed
string map, modelled as an association list. -/
abbrev Tags := List (String × String)

/-- Fields dict of one measurement sample (`fields_dict` in the source). -/
abbrev Fields := List (String × String)

/-- One data point as built by `_enqueue_measurement` (lines 87-93 of
`influxdb_importer.py`): the dict with keys `measurement`, `tags`, `time`
(integer milliseconds since epoch) and `fields`. -/
structure Point where
  measurement : String
  tags : Tags
  time : Nat
  fields : Fields
deriving Repr, DecidableEq

/-- A concrete point used to instantiate theorems at explicit inputs. -/
def examplePoint : Point :=
  { measurement := "sample_measurement"
    tags := [("Sample_Tag", "Sample_Tag_Value")]
    time := 1700000000000
    fields := [("low_val", "17")] }

/-- `IMPORT_RETRY` from the source: retry count for importing a batch. -/
def IMPORT_RETRY : Nat := 3

/-- `IMPORT_QUEUE_SIZE` from the source: default max import queue size. -/
def IMPORT_QUEUE_SIZE : Nat := 10000

/-- Outcome of one `self._influxdb_client.write_points(...)` call as seen by
the `try` block of `_import_data_list`: the call returns a truthy value,
returns a falsy value without raising, raises `InfluxDBClientError` (the
only exception class the `except` clause catches), or raises any other
exception (a connection error, `InfluxDBServerError`, ...). -/
inductive WriteResult
  | success
  | falsy
  | clientError (msg : String)
  | otherError (msg : String)
deriving Repr, DecidableEq

/-- How the `while import_count < IMPORT_RETRY` loop of `_import_data_list`
(lines 102-110) ends: `ok` for the `return` after a truthy write, `raised`
when an uncaught exception propagates out of the loop, `exhausted` when the
loop condition fails and control falls through to the failure policy, and
`outOfFuel` when the supplied finite list of backend outcomes is consumed
with the loop still running (carrying the live `import_count` and
`ex_message`). -/
inductive LoopOutcome
  | ok
  | raised (msg : String)
  | exhausted (ex_message : Option String)
  | outOfFuel (count : Nat) (ex_message : Option String)
deriving Repr, DecidableEq

/-- Whether the loop has actually stopped (anything but `outOfFuel`). -/
def LoopOutcome.finished : LoopOutcome → Bool
  | .outOfFuel _ _ => false
  | _ => true

/-- The retry loop of `_import_data_list` (lines 102-110):

    while import_count < IMPORT_RETRY:
        try:
            if self._influxdb_client.write_points(data_list, time_precision='ms'):
                return
        except InfluxDBClientError as ex:
            import_count += 1
            ex_message = str(ex)

`outs` is the finite prefix of backend outcomes available to the run,
`count` is `import_count`, `ex_message` the saved exception text, and
`calls` counts the `write_points` calls made so far; the result pairs the
loop outcome with the total number of backend calls. A falsy return leaves
`import_count` unchanged; an exception other than `InfluxDBClientError` is
not caught and aborts the loop. -/
def importLoopGo : List WriteResult → Nat → Option String → Nat → LoopOutcome × Nat
  | [], count, ex_message, calls =>
    if count < IMPORT_RETRY then (.outOfFuel count ex_message, calls)
    else (.exhausted ex_message, calls)
  | o :: rest, count, ex_message, calls =>
    if count < IMPORT_RETRY then
      match o with
      | .success => (.ok, calls + 1)
      | .falsy => importLoopGo rest count ex_message (calls + 1)
      | .clientError m => importLoopGo rest (count + 1) (some m) (calls + 1)
      | .otherError m => (.raised m, calls + 1)
    else (.exhausted ex_message, calls)

/-- The `error_message` built on lines 111-113.  The Python code formats a
fixed template with exactly three variable parts: `IMPORT_RETRY`, the saved
`ex_message`, and `data_list`; the message is modelled by this record of
those parts. -/
structure ErrorMessage where
  retries : Nat
  exception : Option String
  data : List Point
deriving Repr, DecidableEq

/-- `error_message` as assembled on lines 111-113 of the source: retry
count `IMPORT_RETRY`, last saved exception text, and the dropped batch. -/
def error_message (ex_message : Option String) (data_list : List Point) : ErrorMessage :=
  { retries := IMPORT_RETRY, exception := ex_message, data := data_list }

/-- Observable result of one `_import_data_list` call: `ok` for a normal
return from inside the loop, `dropped` for the `ignore_errors` branch that
logs `error_message` as a warning and returns, `importError` for the
`raise InfluxdbImportError(error_message)` branch, `uncaught` for an
exception the `except` clause does not catch, and `outOfFuel` when the
supplied outcome list is too short to finish the loop. -/
inductive ImportResult
  | ok
  | dropped (warning : ErrorMessage)
  | importError (err : ErrorMessage)
  | uncaught (msg : String)
  | outOfFuel (count : Nat) (ex_message : Option String)
deriving Repr, DecidableEq

/-- `_import_data_list(self, data_list)` (lines 95-117): run the retry
loop over the backend outcomes `outs`, then apply the failure policy:
with `ignore_errors` log a warning and return, otherwise raise
`InfluxdbImportError`.  Returns the observable result paired with the
number of `write_points` calls made. -/
def _import_data_list (ignore_errors : Bool) (outs : List WriteResult)
    (data_list : List Point) : ImportResult × Nat :=
  match importLoopGo outs 0 none 0 with
  | (.ok, n) => (.ok, n)
  | (.raised m, n) => (.uncaught m, n)
  | (.outOfFuel c e, n) => (.outOfFuel c e, n)
  | (.exhausted e, n) =>
    if ignore_errors then (.dropped (error_message e data_list), n)
    else (.importError (error_message e data_list), n)

/-- The first `n` outcomes produced by a backend modelled as a function
from attempt index to outcome. -/
def backendTrace (backend : Nat → WriteResult) (n : Nat) : List WriteResult :=
  (List.range n).map backend

/-- The retry loop terminates against the given backend: some finite
prefix of its outcomes lets the loop stop (return, raise, or fall through
to the failure policy). -/
def loopTerminates (backend : Nat → WriteResult) : Prop :=
  ∃ n, ((importLoopGo (backendTrace backend n) 0 none 0).1).finished = true

/-- Does this outcome let the loop body continue (falsy return or caught
`InfluxDBClientError`)?  `success` returns, `otherError` propagates. -/
def continuesB : WriteResult → Bool
  | .falsy => true
  | .clientError _ => true
  | _ => false

/-- 1 for an outcome that increments `import_count`, 0 otherwise. -/
def ceFlag : WriteResult → Nat
  | .clientError _ => 1
  | _ => 0

/-- Number of `InfluxDBClientError` outcomes in a list. -/
def ceSum (outs : List WriteResult) : Nat := (outs.map ceFlag).sum

/-- Number of `InfluxDBClientError` outcomes among the first `n` attempts
of a backend. -/
def ceCount (backend : Nat → WriteResult) (n : Nat) : Nat :=
  ceSum (backendTrace backend n)

/-! ## The import queue under concurrent access

`self._import_queue` is a `Queue.Queue`, an internally locked FIFO; its
`put` and `get` calls are individually atomic.  A schedule of the system is
an arbitrary interleaving of atomic `put` steps (from `_enqueue_measurement`
on any producer thread) and atomic `get` steps (from the collect loop of
`import_thread`, which only issues `get` after observing a non-empty
queue, so a `get` on an empty queue does not occur and is modelled as a
no-op).  `drained` accumulates, across every drain the schedule contains,
the points handed to `_import_data_list`. -/

/-- Queue contents plus everything drained so far. -/
structure QueueState where
  queue : List Point
  drained : List Point
deriving Repr, DecidableEq

/-- One atomic queue operation: a producer `put` or a drain-loop `get`. -/
inductive QueueOp
  | put (p : Point)
  | get
deriving Repr, DecidableEq

/-- Effect of one atomic operation: `put` appends at the tail
(`Queue.put`), `get` removes the head (`Queue.get`) and appends it to the
drained batch. -/
def queueStep : QueueState → QueueOp → QueueState
  | s, .put p => { s with queue := s.queue ++ [p] }
  | s, .get =>
    match s.queue with
    | [] => s
    | x :: rest => { queue := rest, drained := s.drained ++ [x] }

/-- Run a whole interleaved schedule of atomic queue operations. -/
def queueRun (s : QueueState) (ops : List QueueOp) : QueueState :=
  ops.foldl queueStep s

/-- The points a schedule puts, in order. -/
def putsOf : List QueueOp → List Point
  | [] => []
  | .put p :: rest => p :: putsOf rest
  | .get :: rest => putsOf rest

/-! ## The drain loop of `import_thread` -/

/-- The inner collect loop of `import_thread` (lines 140-142):

    data_list = []
    while not self._import_queue.empty():
        data_list.append(self._import_queue.get())

starting from queue contents `q`; `arrivals` gives, for each emptiness
check the loop performs while producers are still active, the points
concurrently `put` just before that check (empty when none arrived).  Once
`arrivals` is exhausted no producer interferes again and the loop drains
the rest of the queue deterministically.  Returns the collected
`data_list` and the queue contents left behind for the next iteration. -/
def collectLoop : List Point → List (List Point) → List Point × List Point
  | q, [] => (q, [])
  | q, a :: rest =>
    match q ++ a with
    | [] => ([], rest.flatten)
    | x :: q1 =>
      let br := collectLoop q1 rest
      (x :: br.1, br.2)

/-- One iteration of the `import_thread` body (lines 136-147): check
emptiness once; if the queue is non-empty, collect its whole contents
(with concurrent arrivals) into `data_list` and hand that batch to
`_import_data_list`; otherwise sleep for the poll interval.  The first
component is the batch passed to `_import_data_list`, or `none` when the
iteration sleeps and makes no write call. -/
def import_thread_iter (q : List Point) (arrivals : List (List Point)) :
    Option (List Point) × List Point :=
  if q.isEmpty then (none, q ++ arrivals.flatten)
  else
    let br := collectLoop q arrivals
    (some br.1, br.2)

/-! ## Constructor trace -/

/-- The externally observable actions the `InfluxdbImporter` constructor
and its helpers perform, in order. -/
inductive InitAction
  | getListDatabase
  | createDatabase (name : String)
  | switchDatabase (name : String)
  | startImportThread
  | startSamplingThread
deriving Repr, DecidableEq

/-- `_create_database(self, name)` (lines 67-79): list the existing
databases; create the database only when its name is absent from that
list; then switch to it.  `existing` is the name list the backend
reports. -/
def _create_database (existing : List String) (name : String) : List InitAction :=
  [InitAction.getListDatabase] ++
    (if name ∈ existing then [] else [InitAction.createDatabase name]) ++
    [InitAction.switchDatabase name]

/-- Action trace of `__init__` (lines 27-65): after storing the
configuration and building the client it calls `_create_database`, then
`start_importing_thread`.  `callbacks` is `data_importer_callback_list`;
the constructor never calls `start_sampling_thread`, whatever the
callback list contains. -/
def initTrace {α : Type} (existing : List String) (name : String)
    (callbacks : List α) : List InitAction :=
  _create_database existing name ++ [InitAction.startImportThread]

/-! ## Enqueue and the sampling loop -/

/-- `_enqueue_measurement(self, measurement, fields_dict)` (lines 81-93):
put onto the import queue the dict built from the measurement name, the
importer's constant `tags_dict`, the clock reading `int(time.time() * 1000)`
taken inside this call (`nowMs`), and the fields dict. -/
def _enqueue_measurement (tags_dict : Tags) (measurement : String)
    (fields_dict : Fields) (nowMs : Nat) (queue : List Point) : List Point :=
  queue ++ [{ measurement := measurement, tags := tags_dict,
              time := nowMs, fields := fields_dict }]

/-- What one `data_importer_callback()` call does: return a
`(measurement, fields_dict)` pair, or raise. -/
inductive CallbackResult
  | ok (measurement : String) (fields : Fields)
  | err (msg : String)
deriving Repr, DecidableEq

/-- The `for data_importer_callback in self._data_importer_callback_list`
body of `start_sampling_thread` (lines 176-178) over one tick: invoke the
callbacks in list order; each returned pair goes through
`import_data` / `_enqueue_measurement` onto the queue, with `clock 0`
the millisecond reading at the first enqueue and the clock stream shifted
after each one; a callback that raises is not retried and its exception
aborts the remaining callbacks of the tick.  Returns the queue after the
tick and the propagating exception, if any. -/
def sampling_tick (tags_dict : Tags) (clock : Nat → Nat) :
    List CallbackResult → List Point → List Point × Option String
  | [], q => (q, none)
  | .ok m f :: rest, q =>
    sampling_tick tags_dict (fun j => clock (j + 1)) rest
      (_enqueue_measurement tags_dict m f (clock 0) q)
  | .err e :: _, q => (q, some e)

/-- The `while True` loop of `start_sampling_thread` (lines 175-179), run
for `fuel` ticks starting at tick index `t`: each tick runs
`sampling_tick` on the callback results `ticks t` with the clock stream
`clocks t`, then sleeps; an exception from a tick propagates and halts the
loop (there is no handler around the callback calls).  Returns the final
queue and the propagating exception, if any. -/
def sampling_loop (tags_dict : Tags) (ticks : Nat → List CallbackResult)
    (clocks : Nat → Nat → Nat) : Nat → Nat → List Point → List Point × Option String
  | _, 0, q => (q, none)
  | t, fuel + 1, q =>
    match sampling_tick tags_dict (clocks t) (ticks t) q with
    | (q1, none) => sampling_loop tags_dict ticks clocks (t + 1) fuel q1
    | (q1, some e) => (q1, some e)

/-! ## Helper lemmas about the retry loop -/

/-- Once `import_count` has reached `IMPORT_RETRY`, the loop condition
fails immediately: the loop exits to the failure policy without touching
any further outcome. -/
theorem importLoopGo_exhausted (outs : List WriteResult) (count : Nat)
    (e : Option String) (k : Nat) (hc : ¬ count < IMPORT_RETRY) :
    importLoopGo outs count e k = (LoopOutcome.exhausted e, k) := by
  cases outs <;> simp [importLoopGo, hc]

/-- Three consecutive `InfluxDBClientError` attempts exhaust the retry
budget: the loop exits with the last exception text saved and exactly
three backend calls made, whatever outcomes would have followed. -/
theorem importLoopGo_all_ce (m0 m1 m2 : String) (rest : List WriteResult) :
    importLoopGo (WriteResult.clientError m0 :: WriteResult.clientError m1 ::
      WriteResult.clientError m2 :: rest) 0 none 0 =
      (LoopOutcome.exhausted (some m2), 3) := by
  simp [importLoopGo, importLoopGo_exhausted, IMPORT_RETRY]

/-- Against a backend whose every attempt raises `InfluxDBClientError`
(and answers at least `IMPORT_RETRY` attempts), `_import_data_list` makes
exactly `IMPORT_RETRY` backend calls and then applies the failure policy
with the third attempt's exception text. -/
theorem all_ce_calls (ig : Bool) (batch : List Point) (outs : List WriteResult)
    (hn : 3 ≤ outs.length)
    (hf : ∀ o ∈ outs, ∃ m, o = WriteResult.clientError m) :
    ∃ m2, _import_data_list ig outs batch =
      ((if ig then ImportResult.dropped (error_message (some m2) batch)
        else ImportResult.importError (error_message (some m2) batch)), IMPORT_RETRY) := by
  rcases outs with _ | ⟨o0, _ | ⟨o1, _ | ⟨o2, rest⟩⟩⟩
  · simp at hn
  · simp at hn
  · simp at hn
  · obtain ⟨m0, rfl⟩ := hf _ (List.mem_cons_self _ _)
    obtain ⟨m1, rfl⟩ := hf _ (List.mem_cons_of_mem _ (List.mem_cons_self _ _))
    obtain ⟨m2, rfl⟩ := hf _
      (List.mem_cons_of_mem _ (List.mem_cons_of_mem _ (List.mem_cons_self _ _)))
    exact ⟨m2, by cases ig <;> simp [_import_data_list, importLoopGo_all_ce, IMPORT_RETRY]⟩

/-- The retry loop never ends in `raised` unless some outcome is an
exception other than `InfluxDBClientError`. -/
theorem importLoopGo_no_raised : ∀ (outs : List WriteResult),
    (∀ o ∈ outs, ∀ s, o ≠ WriteResult.otherError s) →
    ∀ count e k m, (importLoopGo outs count e k).1 ≠ LoopOutcome.raised m := by
  intro outs
  induction outs with
  | nil =>
    intro _ count e k m
    by_cases hc : count < IMPORT_RETRY <;> simp [importLoopGo, hc]
  | cons o rest ih =>
    intro h count e k m
    by_cases hc : count < IMPORT_RETRY
    · cases o with
      | success => simp [importLoopGo, hc]
      | falsy =>
        simpa [importLoopGo, hc] using
          ih (fun x hx => h x (List.mem_cons_of_mem _ hx)) count e (k + 1) m
      | clientError s =>
        simpa [importLoopGo, hc] using
          ih (fun x hx => h x (List.mem_cons_of_mem _ hx)) (count + 1) (some s) (k + 1) m
      | otherError s => exact absurd rfl (h _ (List.mem_cons_self _ _) s)
    · simp [importLoopGo, hc]

/-- If every available outcome lets the loop body continue (falsy return
or caught client error) and the client errors cannot push `import_count`
to `IMPORT_RETRY`, the loop is still running when the outcomes run out. -/
theorem importLoopGo_outOfFuel : ∀ (outs : List WriteResult),
    ∀ count e k, (∀ o ∈ outs, continuesB o = true) →
    count + ceSum outs < IMPORT_RETRY →
    ((importLoopGo outs count e k).1).finished = false := by
  intro outs
  induction outs with
  | nil =>
    intro count e k _ hlt
    have hc : count < IMPORT_RETRY := by simpa [ceSum] using hlt
    simp [importLoopGo, hc, LoopOutcome.finished]
  | cons o rest ih =>
    intro count e k hcont hlt
    have hsum : ceSum (o :: rest) = ceFlag o + ceSum rest := by simp [ceSum]
    have hc : count < IMPORT_RETRY := by omega
    cases o with
    | success =>
      have := hcont _ (List.mem_cons_self _ _)
      simp [continuesB] at this
    | otherError s =>
      have := hcont _ (List.mem_cons_self _ _)
      simp [continuesB] at this
    | falsy =>
      have hflag : ceFlag WriteResult.falsy = 0 := rfl
      simpa [importLoopGo, hc] using
        ih count e (k + 1) (fun x hx => hcont x (List.mem_cons_of_mem _ hx)) (by omega)
    | clientError s =>
      have hflag : ceFlag (WriteResult.clientError s) = 1 := rfl
      simpa [importLoopGo, hc] using
        ih (count + 1) (some s) (k + 1)
          (fun x hx => hcont x (List.mem_cons_of_mem _ hx)) (by omega)

/-- If the outcomes contain a stopping event — either enough client
errors to push `import_count` to `IMPORT_RETRY`, or an outcome that
returns or propagates — the loop stops before the outcomes run out. -/
theorem importLoopGo_finishes : ∀ (outs : List WriteResult),
    ∀ count e k,
    (IMPORT_RETRY ≤ count + ceSum outs ∨ ∃ o ∈ outs, continuesB o = false) →
    ((importLoopGo outs count e k).1).finished = true := by
  intro outs
  induction outs with
  | nil =>
    intro count e k h
    rcases h with h | ⟨o, ho, _⟩
    · have hc : ¬ count < IMPORT_RETRY := by simp [ceSum] at h; omega
      simp [importLoopGo, hc, LoopOutcome.finished]
    · simp at ho
  | cons o rest ih =>
    intro count e k h
    by_cases hc : count < IMPORT_RETRY
    · have hsum : ceSum (o :: rest) = ceFlag o + ceSum rest := by simp [ceSum]
      cases o with
      | success => simp [importLoopGo, hc, LoopOutcome.finished]
      | otherError s => simp [importLoopGo, hc, LoopOutcome.finished]
      | falsy =>
        have hside : IMPORT_RETRY ≤ count + ceSum rest ∨
            ∃ x ∈ rest, continuesB x = false := by
          rcases h with h | ⟨x, hx, hcx⟩
          · left
            have hflag : ceFlag WriteResult.falsy = 0 := rfl
            omega
          · rcases List.mem_cons.mp hx with rfl | hx2
            · simp [continuesB] at hcx
            · exact Or.inr ⟨x, hx2, hcx⟩
        simpa [importLoopGo, hc] using ih count e (k + 1) hside
      | clientError s =>
        have hside : IMPORT_RETRY ≤ (count + 1) + ceSum rest ∨
            ∃ x ∈ rest, continuesB x = false := by
          rcases h with h | ⟨x, hx, hcx⟩
          · left
            have hflag : ceFlag (WriteResult.clientError s) = 1 := rfl
            omega
          · rcases List.mem_cons.mp hx with rfl | hx2
            · simp [continuesB] at hcx
            · exact Or.inr ⟨x, hx2, hcx⟩
        simpa [importLoopGo, hc] using ih (count + 1) (some s) (k + 1) hside
    · simp [importLoopGo, hc, LoopOutcome.finished]

/-! ## Claims about the retrying writer -/

/-- Claim C1: for every non-empty batch, if every backend write attempt
fails (raises `InfluxDBClientError`, the failure the backend signals for a
client/server error and the only one the loop catches), `_import_data_list`
attempts the backend call exactly `IMPORT_RETRY` = 3 times — no more, no
fewer — and then applies the failure policy (drop-with-warning or raise). -/
theorem retry_bound (ig : Bool) (batch : List Point) (outs : List WriteResult)
    (hb : batch ≠ []) (hn : 3 ≤ outs.length)
    (hf : ∀ o ∈ outs, ∃ m, o = WriteResult.clientError m) :
    (_import_data_list ig outs batch).2 = IMPORT_RETRY ∧
    ∃ e, (_import_data_list ig outs batch).1 = ImportResult.dropped e ∨
      (_import_data_list ig outs batch).1 = ImportResult.importError e := by
  obtain ⟨m2, h⟩ := all_ce_calls ig batch outs hn hf
  refine ⟨by rw [h], error_message (some m2) batch, ?_⟩
  rw [h]
  cases ig <;> simp

/-- Witness for C1 at a concrete always-failing backend and a concrete
one-point batch. -/
theorem retry_bound_w :
    (_import_data_list true (List.replicate 3 (WriteResult.clientError "boom"))
      [examplePoint]).2 = IMPORT_RETRY ∧
    ∃ e, (_import_data_list true (List.replicate 3 (WriteResult.clientError "boom"))
        [examplePoint]).1 = ImportResult.dropped e ∨
      (_import_data_list true (List.replicate 3 (WriteResult.clientError "boom"))
        [examplePoint]).1 = ImportResult.importError e :=
  retry_bound true [examplePoint] _ (by simp) (by simp)
    (fun o ho => ⟨"boom", List.eq_of_mem_replicate ho⟩)

/-- Claim C2: for every non-empty batch whose every write attempt raises
`InfluxDBClientError`: with `ignore_errors` the call logs the warning
message and returns normally after exactly `IMPORT_RETRY` attempts;
without it, it raises `InfluxdbImportError` whose message carries the
retry count (`IMPORT_RETRY`), the last exception text, and the dropped
batch — the three variable parts of `error_message`. -/
theorem drop_vs_raise (ig : Bool) (batch : List Point) (m0 m1 m2 : String)
    (rest : List WriteResult) (hb : batch ≠ [])
    (hrest : ∀ o ∈ rest, ∃ m, o = WriteResult.clientError m) :
    _import_data_list ig
      (WriteResult.clientError m0 :: WriteResult.clientError m1 ::
        WriteResult.clientError m2 :: rest) batch =
      ((if ig then ImportResult.dropped (error_message (some m2) batch)
        else ImportResult.importError (error_message (some m2) batch)), IMPORT_RETRY) := by
  cases ig <;> simp [_import_data_list, importLoopGo_all_ce, IMPORT_RETRY]

/-- Witness for C2 at a concrete always-failing backend, with
`ignore_errors = false`. -/
theorem drop_vs_raise_w :
    _import_data_list false
      (WriteResult.clientError "e1" :: WriteResult.clientError "e2" ::
        WriteResult.clientError "e3" :: []) [examplePoint] =
      (ImportResult.importError (error_message (some "e3") [examplePoint]),
        IMPORT_RETRY) := by
  simpa using drop_vs_raise false [examplePoint] "e1" "e2" "e3" [] (by simp) (by simp)

/-- Counterexample to claim C3: a transient backend failure that is not an
`InfluxDBClientError` — here a connection-refused exception, one of the
claim's own examples — is not retried at all (one single backend call) and
surfaces past `_import_data_list` uncaught, even with
`ignore_errors = true`. -/
theorem transient_uncaught_cex :
    (_import_data_list true [WriteResult.otherError "connection refused"]
      [examplePoint]).1 = ImportResult.uncaught "connection refused" ∧
    (_import_data_list true [WriteResult.otherError "connection refused"]
      [examplePoint]).2 = 1 := by
  constructor <;> simp [_import_data_list, importLoopGo, IMPORT_RETRY]

/-- Claim C3 as amended: only failures raised as `InfluxDBClientError` are
retried up to the configured limit; provided no attempt raises an
exception of another type, no backend-related failure surfaces past
`_import_data_list` other than the exhausted-retries failure under
`ignore_errors = false`, and a backend all of whose attempts raise
`InfluxDBClientError` is retried exactly `IMPORT_RETRY` times. -/
theorem client_errors_contained (ig : Bool) (batch : List Point)
    (outs : List WriteResult)
    (hno : ∀ o ∈ outs, ∀ s, o ≠ WriteResult.otherError s) :
    (∀ m, (_import_data_list ig outs batch).1 ≠ ImportResult.uncaught m) ∧
    (∀ e, (_import_data_list ig outs batch).1 = ImportResult.importError e →
      ig = false) ∧
    ((∀ o ∈ outs, ∃ m, o = WriteResult.clientError m) → 3 ≤ outs.length →
      (_import_data_list ig outs batch).2 = IMPORT_RETRY) := by
  refine ⟨?_, ?_, ?_⟩
  · intro m hm
    have hnr := importLoopGo_no_raised outs hno 0 none 0 m
    revert hm
    simp only [_import_data_list]
    rcases hE : importLoopGo outs 0 none 0 with ⟨out, n⟩
    rw [hE] at hnr
    cases out <;> cases ig <;> simp_all
  · intro e
    simp only [_import_data_list]
    rcases hE : importLoopGo outs 0 none 0 with ⟨out, n⟩
    cases out <;> cases ig <;> simp
  · intro hf hn
    obtain ⟨m2, h⟩ := all_ce_calls ig batch outs hn hf
    rw [h]

/-- Witness for the amended C3 at a concrete backend whose three attempts
all raise `InfluxDBClientError`. -/
theorem client_errors_contained_w :
    (_import_data_list true (List.replicate 3 (WriteResult.clientError "boom"))
      [examplePoint]).1 ≠ ImportResult.uncaught "boom" ∧
    (_import_data_list true (List.replicate 3 (WriteResult.clientError "boom"))
      [examplePoint]).2 = IMPORT_RETRY := by
  have h := client_errors_contained true [examplePoint]
    (List.replicate 3 (WriteResult.clientError "boom"))
    (by
      intro o ho s
      rw [List.eq_of_mem_replicate ho]
      simp)
  exact ⟨h.1 "boom",
    h.2.2 (fun o ho => ⟨"boom", List.eq_of_mem_replicate ho⟩) (by simp)⟩

/-! ## Claim about termination of the retry loop -/

/-- A backend whose every attempt raises a connection-refused exception
(an exception class the `except InfluxDBClientError` clause does not
catch). -/
def alwaysConnRefused : Nat → WriteResult :=
  fun _ => WriteResult.otherError "connection refused"

/-- Counterexample to claim C10's "if and only if": against a backend
whose first attempt raises a non-`InfluxDBClientError` exception, the
retry loop terminates after a single call — by propagating the exception —
although no attempt returned a truthy value and zero attempts raised
`InfluxDBClientError`. -/
theorem terminate_iff_cex :
    loopTerminates alwaysConnRefused ∧
    importLoopGo (backendTrace alwaysConnRefused 1) 0 none 0 =
      (LoopOutcome.raised "connection refused", 1) ∧
    ceSum (backendTrace alwaysConnRefused 1) = 0 := by
  refine ⟨⟨1, ?_⟩, ?_, ?_⟩ <;>
    simp [backendTrace, alwaysConnRefused, importLoopGo, IMPORT_RETRY,
      LoopOutcome.finished, ceSum, ceFlag, List.range_succ, List.range_zero,
      Function.comp]

/-- Claim C10 as amended: the retry loop of `_import_data_list` terminates
for a given batch if and only if some attempt returns a truthy success
value, some attempt raises an exception other than `InfluxDBClientError`
(which propagates and aborts the loop), or `IMPORT_RETRY` attempts raise
`InfluxDBClientError`; an attempt whose write call returns a falsy value
without raising does not increment the retry counter, so against a backend
that always fails that way the loop repeats the attempt without bound. -/
theorem terminate_iff (backend : Nat → WriteResult) :
    (loopTerminates backend ↔
      (∃ n, backend n = WriteResult.success) ∨
      (∃ n m, backend n = WriteResult.otherError m) ∨
      (∃ n, IMPORT_RETRY ≤ ceCount backend n)) ∧
    ((∀ n, backend n = WriteResult.falsy) → ¬ loopTerminates backend) := by
  have key : loopTerminates backend ↔
      (∃ n, backend n = WriteResult.success) ∨
      (∃ n m, backend n = WriteResult.otherError m) ∨
      (∃ n, IMPORT_RETRY ≤ ceCount backend n) := by
    constructor
    · rintro ⟨n, hn⟩
      by_contra hrhs
      push_neg at hrhs
      obtain ⟨h1, h2, h3⟩ := hrhs
      have hcont : ∀ o ∈ backendTrace backend n, continuesB o = true := by
        intro o ho
        simp only [backendTrace, List.mem_map] at ho
        obtain ⟨i, _, rfl⟩ := ho
        cases hoi : backend i with
        | success => exact absurd hoi (h1 i)
        | otherError m => exact absurd hoi (h2 i m)
        | falsy => rfl
        | clientError m => rfl
      have hlt : 0 + ceSum (backendTrace backend n) < IMPORT_RETRY := by
        have := h3 n
        simp only [ceCount] at this
        omega
      have := importLoopGo_outOfFuel (backendTrace backend n) 0 none 0 hcont hlt
      exact absurd (this.symm.trans hn) (by simp)
    · intro h
      rcases h with ⟨n, hn⟩ | ⟨n, m, hn⟩ | ⟨n, hn⟩
      · refine ⟨n + 1, importLoopGo_finishes _ 0 none 0 (Or.inr ⟨backend n, ?_, ?_⟩)⟩
        · exact List.mem_map_of_mem backend (List.mem_range.mpr (Nat.lt_succ_self n))
        · rw [hn]
          simp [continuesB]
      · refine ⟨n + 1, importLoopGo_finishes _ 0 none 0 (Or.inr ⟨backend n, ?_, ?_⟩)⟩
        · exact List.mem_map_of_mem backend (List.mem_range.mpr (Nat.lt_succ_self n))
        · rw [hn]
          simp [continuesB]
      · exact ⟨n, importLoopGo_finishes _ 0 none 0 (Or.inl (by simpa [ceCount] using hn))⟩
  refine ⟨key, ?_⟩
  intro hfal hterm
  rcases key.mp hterm with ⟨n, hn⟩ | ⟨n, m, hn⟩ | ⟨n, hn⟩
  · rw [hfal n] at hn
    exact WriteResult.noConfusion hn
  · rw [hfal n] at hn
    exact WriteResult.noConfusion hn
  · have hz : ceCount backend n = 0 := by
      unfold ceCount ceSum
      apply List.sum_eq_zero
      intro x hx
      simp only [backendTrace, List.map_map, List.mem_map] at hx
      obtain ⟨i, _, rfl⟩ := hx
      simp [hfal i, ceFlag]
    rw [hz] at hn
    simp [IMPORT_RETRY] at hn

/-- Witness for the amended C10: the always-falsy backend never lets the
retry loop terminate. -/
theorem terminate_iff_w : ¬ loopTerminates (fun _ => WriteResult.falsy) :=
  (terminate_iff (fun _ => WriteResult.falsy)).2 (fun _ => rfl)

/-! ## Claims about the queue and the drain loop -/

/-- Claim C4: under any interleaving of atomic producer `put` steps and
drain `get` steps (the drain loop of `import_thread` issues its `get`s one
at a time, each individually atomic on the internally locked
`Queue.Queue`), everything ever drained — across any number of
consecutive drains the schedule contains — followed by the queue's
remaining contents is exactly the initial contents followed by the puts in
order.  Hence a `put` concurrent with a drain lands as a whole (it is a
single atomic step, so it is either collected by that drain or left,
entire, for the next one), and no point is ever lost or duplicated across
two consecutive drains combined. -/
theorem drain_put_atomic (s : QueueState) (ops : List QueueOp) :
    (queueRun s ops).drained ++ (queueRun s ops).queue =
      s.drained ++ s.queue ++ putsOf ops := by
  induction ops generalizing s with
  | nil => simp [queueRun, putsOf]
  | cons op rest ih =>
    cases op with
    | put p =>
      simpa [queueRun, queueStep, putsOf, List.append_assoc] using
        ih { s with queue := s.queue ++ [p] }
    | get =>
      cases hq : s.queue with
      | nil =>
        simpa [queueRun, queueStep, putsOf, hq] using ih s
      | cons x q1 =>
        simpa [queueRun, queueStep, putsOf, hq, List.append_assoc] using
          ih { queue := q1, drained := s.drained ++ [x] }

/-- If the collect loop starts on a non-empty queue, its batch is
non-empty, whatever points arrive concurrently. -/
theorem collectLoop_ne_nil (q : List Point) (arrivals : List (List Point))
    (hq : q ≠ []) : (collectLoop q arrivals).1 ≠ [] := by
  cases arrivals with
  | nil => simpa [collectLoop] using hq
  | cons a rest =>
    rcases q with _ | ⟨x, q1⟩
    · exact absurd rfl hq
    · simp [collectLoop]

/-- Claim C5: the drain loop never invokes the backend write with an empty
batch: `import_thread` calls `_import_data_list` only on the branch where
the preceding emptiness check found the queue non-empty, and the batch it
passes there is always a non-empty list. -/
theorem no_empty_write (q : List Point) (arrivals : List (List Point))
    (batch rest : List Point)
    (h : import_thread_iter q arrivals = (some batch, rest)) : batch ≠ [] := by
  by_cases hq : q.isEmpty
  · simp [import_thread_iter, hq] at h
  · have hqne : q ≠ [] := by simpa using hq
    have hcl := collectLoop_ne_nil q arrivals hqne
    simp only [import_thread_iter, hq, if_neg, Bool.false_eq_true,
      not_false_eq_true, Prod.mk.injEq, Option.some.injEq] at h
    obtain ⟨h1, _⟩ := h
    subst h1
    exact hcl

/-- Witness for C5: a drain iteration starting from a one-point queue
passes that non-empty batch to the writer. -/
theorem no_empty_write_w : ([examplePoint] : List Point) ≠ [] :=
  no_empty_write [examplePoint] [] [examplePoint] [] rfl

/-- Running only `put` steps appends the points, in order, at the tail of
the queue and drains nothing. -/
theorem queueRun_puts (ps : List Point) : ∀ s : QueueState,
    queueRun s (ps.map QueueOp.put) =
      { queue := s.queue ++ ps, drained := s.drained } := by
  induction ps with
  | nil => intro s; simp [queueRun]
  | cons p rest ih =>
    intro s
    simpa [queueRun, queueStep, List.append_assoc] using
      ih { s with queue := s.queue ++ [p] }

/-- Claim C6: for every sequence of `put` calls not interleaved with a
drain, starting from an empty queue, the queue then holds exactly those
points in put order, and the next drain (the collect loop, with no
concurrent arrivals) returns exactly them, in exactly that order, and
leaves the queue empty. -/
theorem fifo_drain (ps : List Point) :
    (queueRun { queue := [], drained := [] } (ps.map QueueOp.put)).queue = ps ∧
    collectLoop ps [] = (ps, []) := by
  constructor
  · simp [queueRun_puts]
  · rfl

/-! ## Claim about the constructor -/

/-- Counterexample to claim C7: even with a non-empty producer-callback
list registered, the constructor's action trace never contains
`startSamplingThread` — the constructor does not start the sampling loop
(it must be started by a separate explicit `start_sampling_thread` call,
which runs in the calling thread). -/
theorem init_no_sampling_cex :
    InitAction.startSamplingThread ∉ initTrace [] "Sample_Database" [0] := by
  simp [initTrace, _create_database]

/-- Claim C7 as amended: the constructor first provisions the backend
namespace idempotently — it lists the existing databases, creates the
database only when absent, and then switches to it — and then starts the
drain loop; it does not start the sampling loop, whether or not producer
callbacks were registered. -/
theorem init_order {α : Type} (existing : List String) (name : String)
    (callbacks : List α) :
    (name ∈ existing → initTrace existing name callbacks =
      [InitAction.getListDatabase, InitAction.switchDatabase name,
        InitAction.startImportThread]) ∧
    (name ∉ existing → initTrace existing name callbacks =
      [InitAction.getListDatabase, InitAction.createDatabase name,
        InitAction.switchDatabase name, InitAction.startImportThread]) ∧
    InitAction.startSamplingThread ∉ initTrace existing name callbacks := by
  by_cases h : name ∈ existing <;> simp [initTrace, _create_database, h]

/-- Witness for the amended C7: starting against a backend where the
database already exists, with no callbacks registered. -/
theorem init_order_w :
    initTrace ["Sample_Database"] "Sample_Database" ([] : List Nat) =
      [InitAction.getListDatabase, InitAction.switchDatabase "Sample_Database",
        InitAction.startImportThread] :=
  (init_order ["Sample_Database"] "Sample_Database" []).1 (by simp)

/-! ## Claims about sampling and enqueueing -/

/-- A tick over callbacks that all return normally enqueues, in callback
order, one point per callback, stamped with the clock reading at its own
enqueue. -/
theorem sampling_tick_ok (tags_dict : Tags) :
    ∀ (pre : List (String × Fields)) (clock : Nat → Nat) (q : List Point),
      sampling_tick tags_dict clock
        (pre.map fun mf => CallbackResult.ok mf.1 mf.2) q =
      (q ++ pre.mapIdx (fun j mf =>
        { measurement := mf.1, tags := tags_dict, time := clock j,
          fields := mf.2 }), none) := by
  intro pre
  induction pre with
  | nil => intro clock q; simp [sampling_tick]
  | cons mf rest ih =>
    intro clock q
    simp [sampling_tick, _enqueue_measurement, List.mapIdx_cons,
      ih (fun j => clock (j + 1)), List.append_assoc]

/-- A tick whose callbacks return normally up to one that raises enqueues
exactly the points of the successful prefix, in order, and propagates the
exception; the callbacks after the failing one are never invoked. -/
theorem sampling_tick_err (tags_dict : Tags) (e : String)
    (post : List CallbackResult) :
    ∀ (pre : List (String × Fields)) (clock : Nat → Nat) (q : List Point),
      sampling_tick tags_dict clock
        ((pre.map fun mf => CallbackResult.ok mf.1 mf.2) ++
          CallbackResult.err e :: post) q =
      (q ++ pre.mapIdx (fun j mf =>
        { measurement := mf.1, tags := tags_dict, time := clock j,
          fields := mf.2 }), some e) := by
  intro pre
  induction pre with
  | nil => intro clock q; simp [sampling_tick]
  | cons mf rest ih =>
    intro clock q
    simp [sampling_tick, _enqueue_measurement, List.mapIdx_cons,
      ih (fun j => clock (j + 1)), List.append_assoc]

/-- Claim C8: in a sampling tick the registered callbacks are invoked in
registration order and each returned result is enqueued as one point (the
all-successful tick, first conjunct); a callback that raises is not
retried within the tick, its exception propagates, and the sampling loop
halts — the callbacks after it and every later tick never run, whatever
they would have returned and however much fuel the loop still has (second
conjunct: the loop's result does not depend on `post` or on `ticks t` for
`t > 0`). -/
theorem sampling_order_halt (tags_dict : Tags) (clocks : Nat → Nat → Nat)
    (ticks : Nat → List CallbackResult) (pre : List (String × Fields))
    (e : String) (post : List CallbackResult) (q : List Point) (fuel : Nat)
    (h : ticks 0 = (pre.map fun mf => CallbackResult.ok mf.1 mf.2) ++
      CallbackResult.err e :: post) :
    sampling_tick tags_dict (clocks 0)
        (pre.map fun mf => CallbackResult.ok mf.1 mf.2) q =
      (q ++ pre.mapIdx (fun j mf =>
        { measurement := mf.1, tags := tags_dict, time := clocks 0 j,
          fields := mf.2 }), none) ∧
    sampling_loop tags_dict ticks clocks 0 (fuel + 1) q =
      (q ++ pre.mapIdx (fun j mf =>
        { measurement := mf.1, tags := tags_dict, time := clocks 0 j,
          fields := mf.2 }), some e) := by
  refine ⟨sampling_tick_ok tags_dict pre (clocks 0) q, ?_⟩
  simp [sampling_loop, h, sampling_tick_err tags_dict e post pre (clocks 0) q]

/-- Witness for C8: one tick with a succeeding callback followed by a
raising one. -/
theorem sampling_order_halt_w :
    sampling_loop [("Sample_Tag", "Sample_Tag_Value")]
      (fun _ => [CallbackResult.ok "m1" [("x", "1")], CallbackResult.err "boom"])
      (fun _ _ => 5) 0 1 [] =
      ([{ measurement := "m1", tags := [("Sample_Tag", "Sample_Tag_Value")],
          time := 5, fields := [("x", "1")] }], some "boom") := by
  have h := sampling_order_halt [("Sample_Tag", "Sample_Tag_Value")]
    (fun _ _ => 5)
    (fun _ => [CallbackResult.ok "m1" [("x", "1")], CallbackResult.err "boom"])
    [("m1", [("x", "1")])] "boom" [] [] 0 rfl
  simpa using h.2

/-- Claim C9: the point `_enqueue_measurement` puts on the queue carries
the timestamp read inside that call — the clock at the moment of enqueue,
`genMs + delay`, where `genMs` is the clock when the sample was generated
and `delay` the time elapsed until the enqueue — together with the
pipeline's constant tag dict and the given measurement name and fields;
existing queue entries are untouched (the point, once appended, is never
mutated), and whenever any time at all elapsed between generation and
enqueue, the stored timestamp differs from the generation-time clock. -/
theorem enqueue_timestamp (tags_dict : Tags) (m : String) (f : Fields)
    (genMs delay : Nat) (q : List Point) :
    _enqueue_measurement tags_dict m f (genMs + delay) q =
      q ++ [{ measurement := m, tags := tags_dict, time := genMs + delay,
              fields := f }] ∧
    (_enqueue_measurement tags_dict m f (genMs + delay) q).getLast?.map
      Point.time = some (genMs + delay) ∧
    (0 < delay →
      (_enqueue_measurement tags_dict m f (genMs + delay) q).getLast?.map
        Point.time ≠ some genMs) := by
  refine ⟨rfl, ?_, ?_⟩
  · simp [_enqueue_measurement, List.getLast?_concat]
  · intro hd
    simp [_enqueue_measurement, List.getLast?_concat]
    omega

/-- Witness for C9 with one millisecond between generation and enqueue. -/
theorem enqueue_timestamp_w :
    _enqueue_measurement [("Sample_Tag", "Sample_Tag_Value")]
      "sample_measurement" [("low_val", "17")] (1700000000000 + 1) [] =
      [{ measurement := "sample_measurement",
         tags := [("Sample_Tag", "Sample_Tag_Value")],
         time := 1700000000000 + 1, fields := [("low_val", "17")] }] ∧
    (_enqueue_measurement [("Sample_Tag", "Sample_Tag_Value")]
      "sample_measurement" [("low_val", "17")] (1700000000000 + 1) []).getLast?.map
        Point.time ≠ some 1700000000000 := by
  have h := enqueue_timestamp [("Sample_Tag", "Sample_Tag_Value")]
    "sample_measurement" [("low_val", "17")] 1700000000000 1 []
  exact ⟨h.1, h.2.2 (by omega)⟩

end InfluxdbImporter
